import Mathlib

/-!
Shallow embedding of the elchi-discovery core: the node classifier and
cluster inventory collector (discovery package) and the delivery client
(api package).  Pure data is translated directly; the HTTP round trip is
modelled by passing the response (or a transport failure) as an explicit
argument, and the atomic lifecycle flag by explicit state passing.
-/

namespace ElchiDiscovery

/-- One leftmost split: models Go strings.SplitN(s, sep, 2).  Returns
some (before, after) when sep occurs in s, none otherwise. -/
def splitFirst (sep : List Char) : List Char → Option (List Char × List Char)
  | [] => none
  | c :: rest =>
    if sep.isPrefixOf (c :: rest) then some ([], (c :: rest).drop sep.length)
    else (splitFirst sep rest).map (fun p => (c :: p.1, p.2))

/-- The two-character separator of credential tokens. -/
def sepL : List Char := ['-', '-']

/-- Embeds extractProjectFromToken: SplitN(token, sep, 2); if the split
yields two parts, return the second, else the empty string. -/
def extractProjectFromToken (token : String) : String :=
  match splitFirst sepL token.data with
  | some p => String.mk p.2
  | none => ""

/-- Decidable substring test, used to state what an error message carries. -/
def hasSubstr (pat s : String) : Bool :=
  (splitFirst pat.data s.data).isSome

/- ### Discovery data model -/

structure ClusterInfo where
  name : String
  version : String
deriving DecidableEq, Repr

structure NodeInfo where
  name : String
  roles : List String
  status : String
  version : String
  addresses : List (String × String)
deriving DecidableEq, Repr

structure DiscoveryResult where
  timestamp : Nat
  clusterInfo : ClusterInfo
  nodeCount : Nat
  nodes : List NodeInfo
  duration : String
deriving DecidableEq, Repr

structure NodeCondition where
  condType : String
  status : String
deriving DecidableEq, Repr

structure Taint where
  key : String
deriving DecidableEq, Repr

/-- A cluster node as far as the collector reads it: labels (a map, only
key presence is consulted), taints, status conditions, kubelet version and
addresses. -/
structure Node where
  name : String
  labels : List (String × String)
  taints : List Taint
  conditions : List NodeCondition
  kubeletVersion : String
  addresses : List (String × String)
deriving DecidableEq, Repr

/-- Presence check of a label key, as the Go map lookup comma-ok form. -/
def hasLabel (node : Node) (key : String) : Bool :=
  node.labels.any (fun kv => kv.1 == key)

/-- The taint predicate of the role loop in getNodeRoles. -/
def controlPlaneTaint (t : Taint) : Bool :=
  t.key == "node-role.kubernetes.io/control-plane" ||
  t.key == "node-role.kubernetes.io/master"

/-- Embeds getNodeRoles, statement for statement. -/
def getNodeRoles (node : Node) : List String :=
  let roles : List String := []
  let roles := if hasLabel node "node-role.kubernetes.io/control-plane" then
      roles ++ ["control-plane"] else roles
  let roles := if hasLabel node "node-role.kubernetes.io/master" then
      (if roles.contains "control-plane" then roles else roles ++ ["master"])
    else roles
  let roles := if hasLabel node "node-role.kubernetes.io/worker" then
      roles ++ ["worker"] else roles
  let roles := if hasLabel node "node-role.kubernetes.io/etcd" then
      roles ++ ["etcd"] else roles
  let roles := if roles.isEmpty then
      (if node.taints.any controlPlaneTaint then roles ++ ["control-plane"] else roles)
    else roles
  if roles.isEmpty then roles ++ ["worker"] else roles

/-- Closed form of the role derivation, following the words of the spec:
control-plane label wins and suppresses master; worker and etcd append
independently; taints are consulted only when no label matched; the
default is worker. -/
def nodeRolesSpec (node : Node) : List String :=
  let fromLabels :=
    (if hasLabel node "node-role.kubernetes.io/control-plane" then
        ["control-plane"] else [])
    ++ (if hasLabel node "node-role.kubernetes.io/master"
           && !hasLabel node "node-role.kubernetes.io/control-plane" then
        ["master"] else [])
    ++ (if hasLabel node "node-role.kubernetes.io/worker" then ["worker"] else [])
    ++ (if hasLabel node "node-role.kubernetes.io/etcd" then ["etcd"] else [])
  if !fromLabels.isEmpty then fromLabels
  else if node.taints.any controlPlaneTaint then ["control-plane"]
  else ["worker"]

/-- The condition scan of getNodeStatus: the first condition whose type is
Ready decides; none found means Unknown. -/
def statusOfConditions : List NodeCondition → String
  | [] => "Unknown"
  | c :: rest =>
    if c.condType == "Ready" then
      (if c.status == "True" then "Ready" else "NotReady")
    else statusOfConditions rest

/-- Embeds getNodeStatus. -/
def getNodeStatus (node : Node) : String :=
  statusOfConditions node.conditions

/-- Go map write m[k] = v with overwrite semantics. -/
def mapSet (m : List (String × String)) (k v : String) : List (String × String) :=
  if m.any (fun kv => kv.1 == k) then
    m.map (fun kv => if kv.1 == k then (k, v) else kv)
  else m ++ [(k, v)]

/-- The per-node record built inside the DiscoverNodes loop. -/
def nodeInfoOf (node : Node) : NodeInfo :=
  { name := node.name
    roles := getNodeRoles node
    status := getNodeStatus node
    version := node.kubeletVersion
    addresses := node.addresses.foldl (fun m kv => mapSet m kv.1 kv.2) [] }

/-- Embeds getClusterInfo: the name comes from config; the version starts
as unknown and is overwritten only when the server-version query
succeeded (modelled as some gitVersion). -/
def getClusterInfo (clusterName : String) (serverVersion : Option String) :
    ClusterInfo :=
  let info : ClusterInfo := { name := clusterName, version := "unknown" }
  match serverVersion with
  | some v => { info with version := v }
  | none => info

/-- Embeds DiscoverNodes.  The two cluster API reads are explicit inputs:
the server-version query result and the node list result; the clock reads
are the explicit timestamp and duration inputs. -/
def DiscoverNodes (clusterName : String) (serverVersion : Option String)
    (listed : Except String (List Node)) (now : Nat) (elapsed : String) :
    Except String DiscoveryResult :=
  let clusterInfo := getClusterInfo clusterName serverVersion
  match listed with
  | Except.error e => Except.error e
  | Except.ok items =>
    Except.ok
      { timestamp := now
        clusterInfo := clusterInfo
        nodeCount := items.length
        nodes := items.foldl (fun acc node => acc ++ [nodeInfoOf node]) []
        duration := elapsed }

/- ### Delivery client -/

structure ElchiConfig where
  apiEndpoint : String
  token : String
deriving DecidableEq, Repr

structure APIResponse where
  success : Bool
  message : String
  error : String
deriving DecidableEq, Repr

/-- The HTTP response as the client reads it: a status code and the body,
where none models a body that does not decode as an APIResponse. -/
structure HTTPResponse where
  statusCode : Nat
  body : Option APIResponse
deriving DecidableEq, Repr

structure DiscoveryPayload where
  project : String
  data : DiscoveryResult
deriving DecidableEq, Repr

/-- The outbound request as built by sendDiscoveryResult: its headers and
its payload. -/
structure Request where
  contentType : String
  fromElchi : String
  initial : String
  authorization : Option String
  payload : DiscoveryPayload
deriving DecidableEq, Repr

/-- The observable outcome of one send: the returned error (none means
success), the lifecycle flag afterwards, and the request transmitted to
the network layer, when one was. -/
structure SendOutcome where
  result : Option String
  initialCompleted : Bool
  request : Option Request
deriving DecidableEq, Repr

/-- NewClient leaves the atomic flag at its zero value. -/
def newClientInitialCompleted : Bool := false

/-- Embeds GetDiscoveryPayload: derive the project from the token and
wrap the result, failing on an empty derivation. -/
def GetDiscoveryPayload (cfg : ElchiConfig) (result : DiscoveryResult) :
    Except String DiscoveryPayload :=
  let projectID := extractProjectFromToken cfg.token
  if projectID = "" then
    Except.error "invalid token format: expected uuid--project format"
  else
    Except.ok { project := projectID, data := result }

/-- Embeds sendDiscoveryResult.  The flag is passed in and returned; the
network is modelled by the response argument, where none models a
transport failure of httpClient.Do. -/
def sendDiscoveryResult (cfg : ElchiConfig) (initialCompleted : Bool)
    (result : DiscoveryResult) (shouldSend : Bool)
    (response : Option HTTPResponse) : SendOutcome :=
  if cfg.apiEndpoint = "" ∨ shouldSend = false then
    { result := none, initialCompleted := initialCompleted, request := none }
  else
    match GetDiscoveryPayload cfg result with
    | Except.error e =>
      { result := some e, initialCompleted := initialCompleted, request := none }
    | Except.ok payload =>
      let req : Request :=
        { contentType := "application/json"
          fromElchi := "yes"
          initial := if initialCompleted then "false" else "true"
          authorization :=
            if cfg.token ≠ "" then some ("Bearer " ++ cfg.token) else none
          payload := payload }
      match response with
      | none =>
        { result := some "failed to send request"
          initialCompleted := initialCompleted
          request := some req }
      | some resp =>
        if resp.statusCode < 200 ∨ 300 ≤ resp.statusCode then
          match resp.body with
          | some api =>
            if api.error ≠ "" then
              { result := some ("API error (HTTP " ++ toString resp.statusCode
                  ++ "): " ++ api.error)
                initialCompleted := initialCompleted
                request := some req }
            else
              { result := some ("API returned non-success status: "
                  ++ toString resp.statusCode)
                initialCompleted := initialCompleted
                request := some req }
          | none =>
            { result := some ("API returned non-success status: "
                ++ toString resp.statusCode)
              initialCompleted := initialCompleted
              request := some req }
        else
          match resp.body with
          | none =>
            { result := none, initialCompleted := initialCompleted
              request := some req }
          | some api =>
            if api.success then
              { result := none, initialCompleted := true, request := some req }
            else
              { result := some ("API processing failed: " ++ api.error)
                initialCompleted := initialCompleted
                request := some req }

/-- Characterisation of a confirmed remote success: an actual send took
place, the status was in the success range, and the body decoded with the
success flag set. -/
def confirmedSuccess (cfg : ElchiConfig) (shouldSend : Bool)
    (response : Option HTTPResponse) : Bool :=
  !(cfg.apiEndpoint == "") && shouldSend
    && !(extractProjectFromToken cfg.token == "")
    && (match response with
        | some resp =>
          decide (200 ≤ resp.statusCode) && decide (resp.statusCode < 300)
            && (match resp.body with
                | some api => api.success
                | none => false)
        | none => false)

/-- The request sendDiscoveryResult builds whenever tenant derivation
succeeded: fixed markers, the lifecycle header from the flag, and the
bearer header from the raw token. -/
def stdRequest (cfg : ElchiConfig) (flag : Bool) (result : DiscoveryResult) :
    Request :=
  { contentType := "application/json"
    fromElchi := "yes"
    initial := if flag then "false" else "true"
    authorization := if cfg.token ≠ "" then some ("Bearer " ++ cfg.token) else none
    payload := { project := extractProjectFromToken cfg.token, data := result } }

/- ### Concrete inputs used in witnesses and counterexamples -/

def r0 : DiscoveryResult :=
  { timestamp := 0
    clusterInfo := { name := "test-cluster", version := "v1.28.2" }
    nodeCount := 0
    nodes := []
    duration := "100ms" }

def cfg0 : ElchiConfig := { apiEndpoint := "http://api.test", token := "a--b" }

def resp500 : HTTPResponse :=
  { statusCode := 500
    body := some { success := false, message := "", error := "X" } }

def okResp : HTTPResponse :=
  { statusCode := 200
    body := some { success := true, message := "ok", error := "" } }

/-- A node carrying two conditions of type Ready with different values. -/
def mixedNode : Node :=
  { name := "n1"
    labels := []
    taints := []
    conditions := [{ condType := "Ready", status := "False" },
                   { condType := "Ready", status := "True" }]
    kubeletVersion := "v1.28.2"
    addresses := [] }

/- ### Lemmas about splitFirst -/

theorem isPrefixOf_exists {p s : List Char} (h : p.isPrefixOf s = true) :
    ∃ t, s = p ++ t := by
  induction p generalizing s with
  | nil => exact ⟨s, rfl⟩
  | cons c cs ih =>
    cases s with
    | nil => simp [List.isPrefixOf] at h
    | cons d ds =>
      simp only [List.isPrefixOf, Bool.and_eq_true, beq_iff_eq] at h
      obtain ⟨rfl, h2⟩ := h
      obtain ⟨t, rfl⟩ := ih h2
      exact ⟨t, rfl⟩

theorem isPrefixOf_append_self (p t : List Char) :
    p.isPrefixOf (p ++ t) = true := by
  induction p with
  | nil => simp [List.isPrefixOf]
  | cons c cs ih => simp [List.isPrefixOf, ih]

theorem splitFirst_sound (pat : List Char) :
    ∀ {s a b : List Char}, splitFirst pat s = some (a, b) → s = a ++ pat ++ b := by
  intro s
  induction s with
  | nil => intro a b h; simp [splitFirst] at h
  | cons c rest ih =>
    intro a b h
    rw [splitFirst] at h
    split at h
    · rename_i hp
      obtain ⟨t, ht⟩ := isPrefixOf_exists hp
      simp only [Option.some.injEq, Prod.mk.injEq] at h
      obtain ⟨ha, hb⟩ := h
      subst ha
      subst hb
      rw [ht]
      simp [List.drop_left]
    · cases hsf : splitFirst pat rest with
      | none => rw [hsf] at h; simp at h
      | some p =>
        obtain ⟨p1, p2⟩ := p
        rw [hsf] at h
        simp only [Option.map_some', Option.some.injEq, Prod.mk.injEq] at h
        obtain ⟨ha, hb⟩ := h
        subst ha
        subst hb
        rw [ih hsf]
        simp

theorem splitFirst_isSome (pat : List Char) :
    ∀ (a b : List Char), a ++ pat ++ b ≠ [] →
      (splitFirst pat (a ++ pat ++ b)).isSome = true := by
  intro a
  induction a with
  | nil =>
    intro b hne
    simp only [List.nil_append] at hne ⊢
    cases hp : pat ++ b with
    | nil => exact absurd hp hne
    | cons c s0 =>
      rw [splitFirst]
      have hpre : pat.isPrefixOf (c :: s0) = true := by
        rw [← hp]; exact isPrefixOf_append_self pat b
      simp [hpre]
  | cons c a0 ih =>
    intro b hne
    simp only [List.cons_append]
    rw [splitFirst]
    split
    · simp
    · rename_i hp
      by_cases hz : a0 ++ pat ++ b = []
      · exfalso
        have hpat : pat = [] := by
          simp only [List.append_eq_nil] at hz
          exact hz.1.2
        subst hpat
        simp [List.isPrefixOf] at hp
      · have := ih b hz
        simpa using this

theorem splitFirst_minimal (pat : List Char) :
    ∀ {s a b : List Char}, splitFirst pat s = some (a, b) →
      ∀ a1 b1, s = a1 ++ pat ++ b1 → a.length ≤ a1.length := by
  intro s
  induction s with
  | nil => intro a b h; simp [splitFirst] at h
  | cons c rest ih =>
    intro a b h a1 b1 hs
    rw [splitFirst] at h
    split at h
    · simp only [Option.some.injEq, Prod.mk.injEq] at h
      obtain ⟨ha, _⟩ := h
      subst ha
      simp
    · rename_i hp
      cases hsf : splitFirst pat rest with
      | none => rw [hsf] at h; simp at h
      | some p =>
        obtain ⟨p1, p2⟩ := p
        rw [hsf] at h
        simp only [Option.map_some', Option.some.injEq, Prod.mk.injEq] at h
        obtain ⟨ha, hb⟩ := h
        cases a1 with
        | nil =>
          exfalso
          simp only [List.nil_append] at hs
          have hpre : pat.isPrefixOf (c :: rest) = true := by
            rw [hs]; exact isPrefixOf_append_self pat b1
          exact hp hpre
        | cons d a2 =>
          simp only [List.cons_append, List.cons.injEq] at hs
          have hlen := ih hsf a2 b1 hs.2
          subst ha
          simp only [List.length_cons]
          omega

/-- C2: for every credential string containing the separator, tenant
derivation splits on the first occurrence only and returns everything
after it verbatim, further separators included; in particular
uuid--project--extra yields project--extra, not extra and not project. -/
theorem extractProject_first_split (s a b : List Char)
    (h : s = a ++ sepL ++ b) :
    (∃ a0 b0, s = a0 ++ sepL ++ b0
        ∧ extractProjectFromToken (String.mk s) = String.mk b0
        ∧ ∀ a1 b1, s = a1 ++ sepL ++ b1 → a0.length ≤ a1.length)
      ∧ extractProjectFromToken "uuid--project--extra" = "project--extra"
      ∧ extractProjectFromToken "uuid--project--extra" ≠ "extra"
      ∧ extractProjectFromToken "uuid--project--extra" ≠ "project" := by
  refine ⟨?_, by decide, by decide, by decide⟩
  have hne : s ≠ [] := by
    subst h
    simp [sepL]
  have hsome : (splitFirst sepL s).isSome = true := by
    rw [h]
    exact splitFirst_isSome sepL a b (h ▸ hne)
  cases hsf : splitFirst sepL s with
  | none => rw [hsf] at hsome; simp at hsome
  | some p =>
    obtain ⟨a0, b0⟩ := p
    refine ⟨a0, b0, splitFirst_sound sepL hsf, ?_,
      fun a1 b1 h1 => splitFirst_minimal sepL hsf a1 b1 h1⟩
    unfold extractProjectFromToken
    have hd : (String.mk s).data = s := rfl
    rw [hd, hsf]

/-- Witness for C2 at the credential uuid--project--extra. -/
theorem extractProject_first_split_witness :
    ∃ a0 b0, ("uuid--project--extra".data : List Char) = a0 ++ sepL ++ b0
      ∧ extractProjectFromToken (String.mk "uuid--project--extra".data) = String.mk b0
      ∧ ∀ a1 b1, "uuid--project--extra".data = a1 ++ sepL ++ b1 →
          a0.length ≤ a1.length :=
  (extractProject_first_split "uuid--project--extra".data "uuid".data
    "project--extra".data (by decide)).1

/- ### Lemmas about sendDiscoveryResult -/

theorem send_noop (cfg : ElchiConfig) (flag : Bool) (result : DiscoveryResult)
    (shouldSend : Bool) (response : Option HTTPResponse)
    (hc : cfg.apiEndpoint = "" ∨ shouldSend = false) :
    sendDiscoveryResult cfg flag result shouldSend response
      = { result := none, initialCompleted := flag, request := none } := by
  unfold sendDiscoveryResult
  rw [if_pos hc]

theorem send_invalid (cfg : ElchiConfig) (flag : Bool) (result : DiscoveryResult)
    (shouldSend : Bool) (response : Option HTTPResponse)
    (hc : ¬(cfg.apiEndpoint = "" ∨ shouldSend = false))
    (hp : extractProjectFromToken cfg.token = "") :
    sendDiscoveryResult cfg flag result shouldSend response
      = { result := some "invalid token format: expected uuid--project format"
          initialCompleted := flag, request := none } := by
  unfold sendDiscoveryResult GetDiscoveryPayload
  rw [if_neg hc, if_pos hp]

theorem send_request_eq (cfg : ElchiConfig) (flag : Bool) (result : DiscoveryResult)
    (shouldSend : Bool) (response : Option HTTPResponse)
    (hc : ¬(cfg.apiEndpoint = "" ∨ shouldSend = false))
    (hp : ¬extractProjectFromToken cfg.token = "") :
    (sendDiscoveryResult cfg flag result shouldSend response).request
      = some (stdRequest cfg flag result) := by
  unfold sendDiscoveryResult GetDiscoveryPayload stdRequest
  rw [if_neg hc, if_neg hp]
  cases response with
  | none => rfl
  | some resp =>
    obtain ⟨sc, body⟩ := resp
    by_cases hs : sc < 200 ∨ 300 ≤ sc
    · simp only [if_pos hs]
      cases body with
      | none => rfl
      | some api =>
        by_cases he : api.error ≠ ""
        · simp only [if_pos he]
        · simp only [if_neg he]
    · simp only [if_neg hs]
      cases body with
      | none => rfl
      | some api =>
        cases hsucc : api.success <;> simp [hsucc]

theorem send_initialCompleted_eq (cfg : ElchiConfig) (flag : Bool)
    (result : DiscoveryResult) (shouldSend : Bool)
    (response : Option HTTPResponse) :
    (sendDiscoveryResult cfg flag result shouldSend response).initialCompleted
      = (flag || confirmedSuccess cfg shouldSend response) := by
  unfold sendDiscoveryResult GetDiscoveryPayload confirmedSuccess
  by_cases hc1 : cfg.apiEndpoint = ""
  · simp [hc1]
  · cases shouldSend with
    | false => simp [hc1]
    | true =>
      rw [if_neg (by simp [hc1])]
      by_cases hp : extractProjectFromToken cfg.token = ""
      · rw [if_pos hp]
        simp [hp]
      · rw [if_neg hp]
        cases response with
        | none => simp
        | some resp =>
          obtain ⟨sc, body⟩ := resp
          by_cases hs1 : sc < 200
          · simp only [if_pos (Or.inl hs1 : sc < 200 ∨ 300 ≤ sc)]
            have hd : decide (200 ≤ sc) = false := by simp; omega
            cases body with
            | none => simp [hd]
            | some api =>
              by_cases he : api.error ≠ ""
              · simp only [if_pos he]; simp [hd]
              · simp only [if_neg he]; simp [hd]
          · by_cases hs2 : 300 ≤ sc
            · simp only [if_pos (Or.inr hs2 : sc < 200 ∨ 300 ≤ sc)]
              have hd : decide (sc < 300) = false := by simp; omega
              cases body with
              | none => simp [hd]
              | some api =>
                by_cases he : api.error ≠ ""
                · simp only [if_pos he]; simp [hd]
                · simp only [if_neg he]; simp [hd]
            · simp only [if_neg (show ¬(sc < 200 ∨ 300 ≤ sc) by omega)]
              have hd1 : decide (200 ≤ sc) = true := by simp; omega
              have hd2 : decide (sc < 300) = true := by simp; omega
              cases body with
              | none => simp
              | some api =>
                cases hsucc : api.success <;>
                  simp [hsucc, hd1, hd2, hc1, hp]

/-- C1: the lifecycle flag starts at never-succeeded, transitions exactly
when a success-range response body decodes with success true, never
transitions back, and every transmitted request carries the initial
header true precisely while the flag has never transitioned. -/
theorem initial_lifecycle (cfg : ElchiConfig) (flag : Bool)
    (result : DiscoveryResult) (shouldSend : Bool)
    (response : Option HTTPResponse) :
    newClientInitialCompleted = false
      ∧ (sendDiscoveryResult cfg flag result shouldSend response).initialCompleted
          = (flag || confirmedSuccess cfg shouldSend response)
      ∧ (∀ req,
          (sendDiscoveryResult cfg flag result shouldSend response).request = some req →
            req.initial = (if flag then "false" else "true")) := by
  refine ⟨rfl, send_initialCompleted_eq cfg flag result shouldSend response, ?_⟩
  intro req h
  by_cases hc : cfg.apiEndpoint = "" ∨ shouldSend = false
  · rw [send_noop cfg flag result shouldSend response hc] at h
    simp at h
  · by_cases hp : extractProjectFromToken cfg.token = ""
    · rw [send_invalid cfg flag result shouldSend response hc hp] at h
      simp at h
    · rw [send_request_eq cfg flag result shouldSend response hc hp] at h
      simp only [Option.some.injEq] at h
      subst h
      rfl

/-- C4: with no endpoint configured, send returns success at once for
every credential, even a malformed one, transmits nothing and leaves the
lifecycle flag unchanged. -/
theorem send_no_endpoint (token : String) (flag : Bool)
    (result : DiscoveryResult) (shouldSend : Bool)
    (response : Option HTTPResponse) :
    sendDiscoveryResult { apiEndpoint := "", token := token } flag result
        shouldSend response
      = { result := none, initialCompleted := flag, request := none } :=
  send_noop _ flag result shouldSend response (Or.inl rfl)

/-- C10: every request the send actually hands to the network layer
carries the bearer authorization header with the raw credential; the
empty-credential guard is unreachable there, because an empty credential
derives an empty tenant and the send aborts beforehand. -/
theorem transmitted_request_has_authorization (cfg : ElchiConfig)
    (flag : Bool) (result : DiscoveryResult) (shouldSend : Bool)
    (response : Option HTTPResponse) (req : Request)
    (h : (sendDiscoveryResult cfg flag result shouldSend response).request
          = some req) :
    req.authorization = some ("Bearer " ++ cfg.token)
      ∧ cfg.token ≠ ""
      ∧ extractProjectFromToken "" = "" := by
  by_cases hc : cfg.apiEndpoint = "" ∨ shouldSend = false
  · rw [send_noop cfg flag result shouldSend response hc] at h
    simp at h
  · by_cases hp : extractProjectFromToken cfg.token = ""
    · rw [send_invalid cfg flag result shouldSend response hc hp] at h
      simp at h
    · have htok : cfg.token ≠ "" := fun h0 => hp (by rw [h0]; rfl)
      rw [send_request_eq cfg flag result shouldSend response hc hp] at h
      simp only [Option.some.injEq] at h
      subst h
      exact ⟨by simp [stdRequest, htok], htok, rfl⟩

/-- Witness for C10: with endpoint and token configured, the transmitted
request exists and the theorem applies to it. -/
theorem transmitted_request_has_authorization_witness :
    (stdRequest cfg0 false r0).authorization = some ("Bearer " ++ cfg0.token)
      ∧ cfg0.token ≠ ""
      ∧ extractProjectFromToken "" = "" :=
  transmitted_request_has_authorization cfg0 false r0 true none
    (stdRequest cfg0 false r0) (by decide)

/-- C3 counterexample: the credential --project splits with an EMPTY
first part, so it does not yield two non-empty parts, yet tenant
derivation succeeds with tenant project and the send proceeds to
transmission instead of failing with the invalid-token error. -/
theorem tenant_validation_counterexample :
    splitFirst sepL ("--project".data) = some ([], "project".data)
      ∧ extractProjectFromToken "--project" = "project"
      ∧ (sendDiscoveryResult { apiEndpoint := "http://api.test", token := "--project" }
            false r0 true none).request.isSome = true
      ∧ (sendDiscoveryResult { apiEndpoint := "http://api.test", token := "--project" }
            false r0 true none).result
          ≠ some "invalid token format: expected uuid--project format" := by
  decide

/-- C3 amended: the send fails with the invalid-token error and performs
no transmission exactly when the derived tenant is empty, that is when no
separator occurs or the part after the first separator is empty; the part
before the separator is not checked, and whenever the part after the
first separator is non-empty (in particular whenever both parts are
non-empty) tenant derivation succeeds and a request is built. -/
theorem tenant_validation_amended (cfg : ElchiConfig) (flag : Bool)
    (result : DiscoveryResult) (response : Option HTTPResponse)
    (hep : cfg.apiEndpoint ≠ "") :
    (extractProjectFromToken cfg.token = "" ↔
        (splitFirst sepL cfg.token.data = none
          ∨ ∃ a, splitFirst sepL cfg.token.data = some (a, [])))
      ∧ (extractProjectFromToken cfg.token = "" →
          sendDiscoveryResult cfg flag result true response
            = { result := some "invalid token format: expected uuid--project format"
                initialCompleted := flag, request := none })
      ∧ (extractProjectFromToken cfg.token ≠ "" →
          (sendDiscoveryResult cfg flag result true response).request
            = some (stdRequest cfg flag result)) := by
  refine ⟨?_, ?_, ?_⟩
  · unfold extractProjectFromToken
    cases hsf : splitFirst sepL cfg.token.data with
    | none => simp
    | some p =>
      obtain ⟨a, b⟩ := p
      constructor
      · intro h
        right
        have hb : b = [] := by
          have hdata := congrArg String.data h
          simpa using hdata
        exact ⟨a, by rw [hb]⟩
      · rintro (h | ⟨a1, h1⟩)
        · exact absurd h (by simp)
        · have hb : b = [] := by
            simp only [Option.some.injEq, Prod.mk.injEq] at h1
            exact h1.2
          rw [hb]
  · intro hp
    exact send_invalid cfg flag result true response (by simp [hep]) hp
  · intro hp
    exact send_request_eq cfg flag result true response (by simp [hep]) hp

/-- Witness for C3 amended: with endpoint and a well-formed token, the
request is built. -/
theorem tenant_validation_amended_witness :
    (sendDiscoveryResult cfg0 false r0 true none).request
      = some (stdRequest cfg0 false r0) := by
  have h := tenant_validation_amended cfg0 false r0 none (by decide)
  exact h.2.2 (by decide)

/- ### Lemmas for substring facts about error messages -/

theorem hasSubstr_decomp (p s : String) (x y : List Char)
    (hs : s.data = x ++ p.data ++ y) (hx : x ≠ []) : hasSubstr p s = true := by
  unfold hasSubstr
  rw [hs]
  apply splitFirst_isSome
  intro h0
  simp only [List.append_eq_nil] at h0
  exact hx h0.1.1

/-- C5: a status outside 200 to 299 yields an error carrying the status
code, and also the decoded error text when the body decodes with a
non-empty error field; a status inside the range yields success when the
body is undecodable, and an error carrying the remote error text when the
body decodes with success false. -/
theorem sendResponse_interpretation (cfg : ElchiConfig) (flag : Bool)
    (result : DiscoveryResult) (resp : HTTPResponse)
    (hep : cfg.apiEndpoint ≠ "")
    (htok : extractProjectFromToken cfg.token ≠ "") :
    ((resp.statusCode < 200 ∨ 300 ≤ resp.statusCode) →
        ∃ msg, (sendDiscoveryResult cfg flag result true (some resp)).result = some msg
          ∧ hasSubstr (toString resp.statusCode) msg = true
          ∧ (∀ api, resp.body = some api → api.error ≠ "" →
              hasSubstr api.error msg = true))
      ∧ ((200 ≤ resp.statusCode ∧ resp.statusCode < 300) →
          ((resp.body = none →
              (sendDiscoveryResult cfg flag result true (some resp)).result = none)
            ∧ (∀ api, resp.body = some api → api.success = false →
                ∃ msg, (sendDiscoveryResult cfg flag result true (some resp)).result
                    = some msg
                  ∧ hasSubstr api.error msg = true))) := by
  obtain ⟨sc, body⟩ := resp
  unfold sendDiscoveryResult GetDiscoveryPayload
  rw [if_neg (show ¬(cfg.apiEndpoint = "" ∨ true = false) by simp [hep]),
    if_neg htok]
  dsimp only
  constructor
  · intro hs
    cases body with
    | none =>
      refine ⟨"API returned non-success status: " ++ toString sc, ?_, ?_, ?_⟩
      · simp only [if_pos hs]
      · exact hasSubstr_decomp _ _ "API returned non-success status: ".data []
          (by simp [String.data_append]) (by decide)
      · intro api hapi
        simp at hapi
    | some api =>
      by_cases he : api.error ≠ ""
      · refine ⟨"API error (HTTP " ++ toString sc ++ "): " ++ api.error, ?_, ?_, ?_⟩
        · simp only [if_pos hs, if_pos he]
        · apply hasSubstr_decomp _ _ "API error (HTTP ".data
            ("): ".data ++ api.error.data)
          · simp [String.data_append, List.append_assoc]
          · decide
        · intro api2 hapi2 he2
          have h2 : api = api2 := by simpa using hapi2
          subst h2
          apply hasSubstr_decomp _ _ ("API error (HTTP " ++ toString sc ++ "): ").data []
          · simp [String.data_append, List.append_assoc]
          · intro h0
            simp only [String.data_append, List.append_eq_nil] at h0
            exact absurd h0.1.1 (by decide)
      · refine ⟨"API returned non-success status: " ++ toString sc, ?_, ?_, ?_⟩
        · simp only [if_pos hs, if_neg he]
        · exact hasSubstr_decomp _ _ "API returned non-success status: ".data []
            (by simp [String.data_append]) (by decide)
        · intro api2 hapi2 he2
          have h2 : api = api2 := by simpa using hapi2
          subst h2
          exact (he he2).elim
  · rintro ⟨h1, h2⟩
    have hs : ¬(sc < 200 ∨ 300 ≤ sc) := by omega
    constructor
    · intro hb
      subst hb
      simp only [if_neg hs]
    · intro api hapi hsucc
      subst hapi
      refine ⟨"API processing failed: " ++ api.error, ?_, ?_⟩
      · simp only [if_neg hs, hsucc]
        simp
      · exact hasSubstr_decomp _ _ "API processing failed: ".data []
          (by simp [String.data_append]) (by decide)

/-- Witness for C5 at a concrete HTTP 500 response with a decoded error
body. -/
theorem sendResponse_interpretation_witness :
    ∃ msg, (sendDiscoveryResult cfg0 false r0 true (some resp500)).result = some msg
      ∧ hasSubstr (toString resp500.statusCode) msg = true := by
  have h := (sendResponse_interpretation cfg0 false r0 resp500 (by decide)
    (by decide)).1 (by decide)
  obtain ⟨msg, h1, h2, _⟩ := h
  exact ⟨msg, h1, h2⟩

/- ### Node classifier claims -/

/-- C6: role derivation matches the ordered closed form of the spec, with
control-plane suppressing master, worker and etcd independent, taints
consulted only when no role label matched, and a worker default, so the
role list is never empty. -/
theorem getNodeRoles_spec (node : Node) :
    getNodeRoles node = nodeRolesSpec node ∧ getNodeRoles node ≠ [] := by
  have h : getNodeRoles node = nodeRolesSpec node := by
    unfold getNodeRoles nodeRolesSpec
    cases h1 : hasLabel node "node-role.kubernetes.io/control-plane" <;>
    cases h2 : hasLabel node "node-role.kubernetes.io/master" <;>
    cases h3 : hasLabel node "node-role.kubernetes.io/worker" <;>
    cases h4 : hasLabel node "node-role.kubernetes.io/etcd" <;>
    cases h5 : node.taints.any controlPlaneTaint <;>
    simp [h1, h2, h3, h4, h5]
  refine ⟨h, ?_⟩
  rw [h]
  unfold nodeRolesSpec
  cases h1 : hasLabel node "node-role.kubernetes.io/control-plane" <;>
  cases h2 : hasLabel node "node-role.kubernetes.io/master" <;>
  cases h3 : hasLabel node "node-role.kubernetes.io/worker" <;>
  cases h4 : hasLabel node "node-role.kubernetes.io/etcd" <;>
  cases h5 : node.taints.any controlPlaneTaint <;>
  simp [h1, h2, h3, h4, h5]

/-- C7 counterexample: a node carrying a Ready condition with value true
(after one with value false) is classified NotReady, not Ready, because
the scan stops at the first condition of type Ready. -/
theorem getNodeStatus_first_ready_counterexample :
    (∃ c ∈ mixedNode.conditions, c.condType = "Ready" ∧ c.status = "True")
      ∧ getNodeStatus mixedNode = "NotReady" := by
  decide

theorem statusOfConditions_find (l : List NodeCondition) :
    statusOfConditions l =
      (match l.find? (fun c => c.condType == "Ready") with
        | some c => if c.status == "True" then "Ready" else "NotReady"
        | none => "Unknown") := by
  induction l with
  | nil => rfl
  | cons c rest ih =>
    cases hc : (c.condType == "Ready") <;>
      simp [statusOfConditions, List.find?_cons, hc, ih]

theorem statusOfConditions_filter (l : List NodeCondition) :
    statusOfConditions (l.filter (fun c => c.condType == "Ready"))
      = statusOfConditions l := by
  induction l with
  | nil => rfl
  | cons c rest ih =>
    cases hc : (c.condType == "Ready") <;>
      simp [List.filter_cons, hc, statusOfConditions, ih]

/-- C7 amended: the FIRST condition of type Ready determines the status,
Ready when its value is true and NotReady for any other value; with no
Ready condition, including an empty list, the status is Unknown; no other
condition type affects the result. -/
theorem getNodeStatus_first_ready (node : Node) :
    getNodeStatus node =
      (match node.conditions.find? (fun c => c.condType == "Ready") with
        | some c => if c.status == "True" then "Ready" else "NotReady"
        | none => "Unknown")
      ∧ getNodeStatus node
          = getNodeStatus
              { node with
                conditions := node.conditions.filter (fun c => c.condType == "Ready") }
      ∧ (node.conditions.find? (fun c => c.condType == "Ready") = none →
          getNodeStatus node = "Unknown") := by
  refine ⟨statusOfConditions_find node.conditions, ?_, ?_⟩
  · exact (statusOfConditions_filter node.conditions).symm
  · intro hnone
    rw [getNodeStatus, statusOfConditions_find node.conditions, hnone]

/- ### Collector claims -/

theorem foldl_append_eq_map (l : List Node) :
    ∀ acc : List NodeInfo,
      l.foldl (fun acc node => acc ++ [nodeInfoOf node]) acc
        = acc ++ l.map nodeInfoOf := by
  induction l with
  | nil => intro acc; simp
  | cons x xs ih =>
    intro acc
    simp [List.foldl_cons, ih, List.append_assoc]

/-- C8: for every node list the cluster API returns, including the empty
one, collection succeeds with node count equal to the length of the nodes
sequence, one record per listed node in list order, and an empty cluster
yields count zero and an empty sequence rather than an error. -/
theorem DiscoverNodes_count (clusterName : String) (serverVersion : Option String)
    (items : List Node) (now : Nat) (elapsed : String) :
    DiscoverNodes clusterName serverVersion (Except.ok items) now elapsed
      = Except.ok
          { timestamp := now
            clusterInfo := getClusterInfo clusterName serverVersion
            nodeCount := items.length
            nodes := items.map nodeInfoOf
            duration := elapsed }
      ∧ (items.map nodeInfoOf).length = items.length
      ∧ DiscoverNodes clusterName serverVersion (Except.ok []) now elapsed
          = Except.ok
              { timestamp := now
                clusterInfo := getClusterInfo clusterName serverVersion
                nodeCount := 0
                nodes := []
                duration := elapsed } := by
  refine ⟨?_, by simp, rfl⟩
  unfold DiscoverNodes
  dsimp only
  rw [foldl_append_eq_map items []]
  rfl

/-- C9: a failed server-version query leaves the cluster name as
configured and the version exactly unknown, while collection still
succeeds; whether collection errors depends only on the node list query,
never on the version query. -/
theorem version_failure_best_effort (clusterName : String) (items : List Node)
    (lst : Except String (List Node)) (now : Nat) (elapsed : String) :
    getClusterInfo clusterName none = { name := clusterName, version := "unknown" }
      ∧ (∃ r, DiscoverNodes clusterName none (Except.ok items) now elapsed
            = Except.ok r
          ∧ r.clusterInfo = { name := clusterName, version := "unknown" })
      ∧ (DiscoverNodes clusterName none lst now elapsed).isOk = lst.isOk := by
  refine ⟨rfl, ⟨_, rfl, rfl⟩, ?_⟩
  cases lst <;> rfl

end ElchiDiscovery
